import Mathlib

/-!
Shallow embedding of `src/createWallet_EVMSVM.py` (class `WalletManager`).

The Python program manages a per-chain JSON file of wallet records.  We model:

* the wallet file's content as `FileContent` (missing, malformed JSON, or a
  well-formed list of records);
* Python exceptions relevant to the wallet operations as `WErr`
  (`ValueError`, `IOError`) and, for the balance path, `PyErr`
  (`Web3Exception` and `ValueError`, exactly the types caught by
  `get_balance`'s handler);
* the external collaborators (keypair generators, RPC timestamp/height
  queries, the possibility that a file write raises `IOError`) as an
  environment `Env` of oracles, since their outputs are opaque to this
  repository's code;
* each stateful method as a function from the prior file content to a pair
  of a Python-style result (`Except` = normal return / raised exception)
  and the posterior file content.  The file content survives a raised
  exception, as the real file system does.

Numeric results of `get_balance` are modelled as `Rat`: the claims under
verification only concern control flow and the exact value `0.0`, which the
rational `0` represents faithfully.
-/

/-- One wallet record, as built by `create_wallets` (lines 71-76 / 81-86):
`chain`, `address`, `private_key`, `created_at`. -/
structure Wallet where
  chain : String
  address : String
  private_key : String
  created_at : Nat
  deriving Repr, DecidableEq

/-- The observable content of a wallet file: absent, present but raising
`json.JSONDecodeError` on `json.load`, or a well-formed JSON array of
records. -/
inductive FileContent where
  | missing : FileContent
  | corrupt : FileContent
  | wallets : List Wallet → FileContent
  deriving Repr, DecidableEq

/-- Python exceptions raised by the wallet-management methods:
`ValueError` (validation failures) and `IOError` (re-raised by
`_save_wallets`). -/
inductive WErr where
  | valueError : String → WErr
  | ioError : String → WErr
  deriving Repr, DecidableEq

/-- The exception `json.load` raises on malformed input; `_load_wallets`
catches exactly this type. -/
inductive LoadErr where
  | jsonDecodeError : LoadErr
  deriving Repr, DecidableEq

/-- Exceptions arising inside `get_balance`'s `try` block: the handler at
line 105 catches the tuple `(Web3Exception, ValueError)`. -/
inductive PyErr where
  | web3Exception : String → PyErr
  | valueError : String → PyErr
  deriving Repr, DecidableEq

/-- `WALLET_FILES` class dict (lines 13-16).  The constructor validates the
network against `NETWORKS` (same key set), so only the keys using `eth` and
`sol` are ever looked up; other inputs are given a junk value here. -/
def WALLET_FILES (network : String) : String :=
  if network = "eth" then "eth_wallets.json"
  else if network = "sol" then "sol_wallets.json"
  else "KeyError"

/-- Environment of external collaborators and failure switches for one
`WalletManager` instance.  `network` is the constructor-validated chain of
the manager (`self.network`).  The keygen and timestamp oracles are indexed
by the loop iteration, since the Python loop queries them afresh per
wallet.  `io_fail` says whether a file write raises `IOError` (with OS
message `io_msg`); `fail_file` is the unspecified content a failed write
leaves on disk (no claim depends on it). -/
structure Env where
  network : String
  eth_keygen : Nat → String × String
  eth_timestamp : Nat → Nat
  sol_keygen : Nat → String × String
  sol_block_height : Nat → Nat
  io_fail : Bool
  io_msg : String
  fail_file : FileContent → FileContent

/-- `self.wallet_file = self.WALLET_FILES[network]` (line 27). -/
def wallet_file (env : Env) : String :=
  WALLET_FILES env.network

/-- The `try` body of `_load_wallets` (lines 40-43): a missing file yields
`[]`, a malformed file makes `json.load` raise `JSONDecodeError`, a
well-formed file yields its array. -/
def load_wallets_body (file : FileContent) : Except LoadErr (List Wallet) :=
  match file with
  | FileContent.missing => Except.ok []
  | FileContent.corrupt => Except.error LoadErr.jsonDecodeError
  | FileContent.wallets ws => Except.ok ws

/-- `_load_wallets` (lines 37-46): the `except json.JSONDecodeError` handler
prints a warning and returns the empty list. -/
def load_wallets (file : FileContent) : List Wallet :=
  match load_wallets_body file with
  | Except.ok ws => ws
  | Except.error LoadErr.jsonDecodeError => []

/-- `_save_wallets` (lines 48-54): writes the whole collection, re-raising a
caught `IOError` with message `"保存 <file> 失败: <e>"`. -/
def save_wallets (env : Env) (wallets : List Wallet) (file : FileContent) :
    Except WErr Unit × FileContent :=
  if env.io_fail then
    (Except.error (WErr.ioError ("保存 " ++ wallet_file env ++ " 失败: " ++ env.io_msg)),
     env.fail_file file)
  else
    (Except.ok (), FileContent.wallets wallets)

/-- The loop body of `create_wallets` (lines 68-87): the record built on the
`i`-th iteration, branching on the chain exactly as the source does. -/
def make_wallet (env : Env) (chain : String) (i : Nat) : Wallet :=
  if chain = "eth" then
    { chain := "eth"
      address := (env.eth_keygen i).1
      private_key := (env.eth_keygen i).2
      created_at := env.eth_timestamp i }
  else
    { chain := "sol"
      address := (env.sol_keygen i).1
      private_key := (env.sol_keygen i).2
      created_at := env.sol_block_height i }

/-- `create_wallets` (lines 56-91): validate, load, build `num_wallets` new
records, append, save, and return only the new records.  A raised exception
is an `Except.error` in the first component; the second component is the
file content after the call. -/
def create_wallets (env : Env) (file : FileContent) (num_wallets : Int) (chain : String) :
    Except WErr (List Wallet) × FileContent :=
  if num_wallets < 0 then
    (Except.error (WErr.valueError "钱包数量必须是非负数"), file)
  else if ¬(chain = "eth" ∨ chain = "sol") then
    (Except.error (WErr.valueError "仅支持 eth 或 sol 链"), file)
  else if chain ≠ env.network then
    (Except.error (WErr.valueError "网络与请求链不匹配"), file)
  else
    let wallets := load_wallets file
    let new_wallets := (List.range num_wallets.toNat).map (make_wallet env chain)
    match save_wallets env (wallets ++ new_wallets) file with
    | (Except.ok _, file1) => (Except.ok new_wallets, file1)
    | (Except.error e, file1) => (Except.error e, file1)

/-- `manage_wallets` (lines 109-123): validate, load; if the request does
not exceed the current size return a prefix slice without writing,
otherwise create the shortfall and return existing plus new records. -/
def manage_wallets (env : Env) (file : FileContent) (requested_num : Int) (chain : String) :
    Except WErr (List Wallet) × FileContent :=
  if requested_num < 0 then
    (Except.error (WErr.valueError "请求数量必须是非负数"), file)
  else if chain ≠ env.network then
    (Except.error (WErr.valueError "网络与请求链不匹配"), file)
  else
    let wallets := load_wallets file
    let current_num : Int := wallets.length
    if requested_num ≤ current_num then
      (Except.ok (wallets.take requested_num.toNat), file)
    else
      match create_wallets env file (requested_num - current_num) chain with
      | (Except.ok new_wallets, file1) => (Except.ok (wallets ++ new_wallets), file1)
      | (Except.error e, file1) => (Except.error e, file1)

/-- Environment of the balance-query collaborators used by `get_balance`:
`w3.eth.get_balance` (wei), `Pubkey.from_string` (raises `ValueError` on a
malformed address), `sol_client.get_balance` (lamports).  Their failures
are the exception types `get_balance`'s handler anticipates. -/
structure BalanceEnv where
  eth_get_balance : String → Except PyErr Nat
  pubkey_from_string : String → Except PyErr String
  sol_get_balance : String → Except PyErr Nat

/-- The `try` body of `get_balance` (lines 96-104), including the
`raise ValueError` on an unsupported chain. -/
def get_balance_body (benv : BalanceEnv) (address chain : String) : Except PyErr Rat :=
  if chain = "eth" then
    match benv.eth_get_balance address with
    | Except.ok balance_wei => Except.ok ((balance_wei : Rat) / (10 : Rat) ^ 18)
    | Except.error e => Except.error e
  else if chain = "sol" then
    match benv.pubkey_from_string address with
    | Except.ok pubkey =>
      match benv.sol_get_balance pubkey with
      | Except.ok lamports => Except.ok ((lamports : Rat) / (10 : Rat) ^ 9)
      | Except.error e => Except.error e
    | Except.error e => Except.error e
  else
    Except.error (PyErr.valueError "不支持的链类型")

/-- Whether `except (Web3Exception, ValueError)` (line 105) catches the
exception. -/
def caught : PyErr → Bool
  | PyErr.web3Exception _ => true
  | PyErr.valueError _ => true

/-- `get_balance` (lines 93-107): run the body; a caught exception prints a
warning and returns `0.0`. -/
def get_balance (benv : BalanceEnv) (address chain : String) : Except PyErr Rat :=
  match get_balance_body benv address chain with
  | Except.ok v => Except.ok v
  | Except.error e => if caught e then Except.ok 0 else Except.error e

/-- `true` on a normal return, `false` on a raised exception. -/
def exceptOk {ε α : Type} : Except ε α → Bool
  | Except.ok _ => true
  | Except.error _ => false

/-- The records of a normal return (`[]` on an exception; used only where a
normal return is separately established). -/
def okList {ε : Type} : Except ε (List Wallet) → List Wallet
  | Except.ok ws => ws
  | Except.error _ => []

/-- A sequence of `manage_wallets` calls threaded through the file state,
stopping at the first raised exception. -/
def run_requests (env : Env) (chain : String) (file : FileContent) :
    List Int → Except WErr FileContent
  | [] => Except.ok file
  | k :: ks =>
    match manage_wallets env file k chain with
    | (Except.ok _, file1) => run_requests env chain file1 ks
    | (Except.error e, _) => Except.error e

/-- A concrete healthy environment (an `eth` manager whose writes succeed),
used to evaluate the verified statements on concrete inputs. -/
def demoEnv : Env where
  network := "eth"
  eth_keygen := fun _ => ("0xDemoAddr", "0xDemoKey")
  eth_timestamp := fun _ => 1700000000
  sol_keygen := fun _ => ("DemoSolAddr", "DemoSolKey")
  sol_block_height := fun _ => 250000000
  io_fail := false
  io_msg := ""
  fail_file := fun f => f

/-- `demoEnv` with a failing disk: every file write raises `IOError`. -/
def cexEnv : Env :=
  { demoEnv with io_fail := true, io_msg := "disk full" }

/-- A concrete balance environment whose RPC queries all fail with a
network-level `Web3Exception`. -/
def failBenv : BalanceEnv where
  eth_get_balance := fun _ => Except.error (PyErr.web3Exception "connection refused")
  pubkey_from_string := fun a => Except.ok a
  sol_get_balance := fun _ => Except.error (PyErr.web3Exception "connection refused")

/-- Is the outcome a raised `ValueError`? -/
def isValueError {α : Type} : Except WErr α → Bool
  | Except.error (WErr.valueError _) => true
  | _ => false

/-- The record every `eth` generation step of `demoEnv` produces. -/
def demoWallet : Wallet where
  chain := "eth"
  address := "0xDemoAddr"
  private_key := "0xDemoKey"
  created_at := 1700000000

lemma create_wallets_ok (env : Env) (file : FileContent) (n : Int) (chain : String)
    (h0 : 0 ≤ n) (hv : chain = "eth" ∨ chain = "sol") (hnet : chain = env.network)
    (hio : env.io_fail = false) :
    create_wallets env file n chain =
      (Except.ok ((List.range n.toNat).map (make_wallet env chain)),
       FileContent.wallets
         (load_wallets file ++ (List.range n.toNat).map (make_wallet env chain))) := by
  have h0' : ¬ n < 0 := not_lt.mpr h0
  have hv' : ¬¬(chain = "eth" ∨ chain = "sol") := not_not_intro hv
  have hnet' : ¬(chain ≠ env.network) := not_not_intro hnet
  simp only [create_wallets, save_wallets, if_neg h0', if_neg hv', if_neg hnet', hio,
    Bool.false_eq_true, if_false]

/-- C9: loading the wallet collection from a missing file yields the empty
collection, and loading from a malformed-JSON file (where `json.load`
raises `JSONDecodeError`) is recovered by the handler as the empty
collection rather than escalated. -/
theorem load_wallets_recovery :
    load_wallets FileContent.missing = [] ∧
    load_wallets_body FileContent.corrupt = Except.error LoadErr.jsonDecodeError ∧
    load_wallets FileContent.corrupt = [] :=
  ⟨rfl, rfl, rfl⟩

/-- C1: for every address and chain, `get_balance` returns normally (its
outcome is never a raised exception), and whenever the `try` body raises a
query failure the returned value is exactly `0.0`. -/
theorem get_balance_total_and_zero_on_failure (benv : BalanceEnv) (address chain : String) :
    exceptOk (get_balance benv address chain) = true ∧
    (∀ e : PyErr, get_balance_body benv address chain = Except.error e →
      get_balance benv address chain = Except.ok 0) := by
  constructor
  · unfold get_balance
    cases h : get_balance_body benv address chain with
    | ok v => rfl
    | error e => cases e <;> rfl
  · intro e he
    unfold get_balance
    rw [he]
    cases e <;> rfl

/-- C1 witness: on a concrete environment whose RPC query fails, the body
raises and `get_balance` returns `0.0`. -/
theorem get_balance_total_and_zero_on_failure_witness :
    exceptOk (get_balance failBenv "0xbad" "eth") = true ∧
    get_balance failBenv "0xbad" "eth" = Except.ok 0 :=
  ⟨(get_balance_total_and_zero_on_failure failBenv "0xbad" "eth").1,
   (get_balance_total_and_zero_on_failure failBenv "0xbad" "eth").2
     (PyErr.web3Exception "connection refused") rfl⟩

/-- C10: for a chain argument that is neither of the two supported values,
the internally raised unsupported-chain `ValueError` is caught by
`get_balance`'s own handler, so the call returns `0.0` instead of
raising. -/
theorem get_balance_unknown_chain_zero (benv : BalanceEnv) (address chain : String)
    (h1 : chain ≠ "eth") (h2 : chain ≠ "sol") :
    get_balance benv address chain = Except.ok 0 := by
  unfold get_balance get_balance_body
  simp [h1, h2, caught]

/-- C10 witness: a concrete unsupported chain yields `0.0`. -/
theorem get_balance_unknown_chain_zero_witness :
    get_balance failBenv "anyAddress" "btc" = Except.ok 0 :=
  get_balance_unknown_chain_zero failBenv "anyAddress" "btc" (by decide) (by decide)

/-- C6: under its preconditions and a succeeding write, `create_wallets n`
returns normally with exactly `n` new records, reloading the file shows the
collection grew by exactly `n`, and every new record's `chain` field equals
the requested chain. -/
theorem create_wallets_grows_by_n (env : Env) (file : FileContent) (n : Int) (chain : String)
    (h0 : 0 ≤ n) (hv : chain = "eth" ∨ chain = "sol") (hnet : chain = env.network)
    (hio : env.io_fail = false) :
    exceptOk (create_wallets env file n chain).1 = true ∧
    (okList (create_wallets env file n chain).1).length = n.toNat ∧
    (load_wallets (create_wallets env file n chain).2).length =
      (load_wallets file).length + n.toNat ∧
    (okList (create_wallets env file n chain).1).all
      (fun w => w.chain == chain) = true := by
  rw [create_wallets_ok env file n chain h0 hv hnet hio]
  refine ⟨rfl, by simp [okList], by simp [load_wallets, load_wallets_body], ?_⟩
  rcases hv with hv | hv <;> subst hv <;>
    simp [okList, List.all_eq_true, make_wallet]

/-- C6 witness: generating 2 records on an empty `eth` store. -/
theorem create_wallets_grows_by_n_witness :
    exceptOk (create_wallets demoEnv FileContent.missing 2 "eth").1 = true ∧
    (okList (create_wallets demoEnv FileContent.missing 2 "eth").1).length = (2 : Int).toNat ∧
    (load_wallets (create_wallets demoEnv FileContent.missing 2 "eth").2).length =
      (load_wallets FileContent.missing).length + (2 : Int).toNat ∧
    (okList (create_wallets demoEnv FileContent.missing 2 "eth").1).all
      (fun w => w.chain == "eth") = true :=
  create_wallets_grows_by_n demoEnv FileContent.missing 2 "eth" (by decide) (Or.inl rfl) rfl rfl

/-- C7: for a chain matching the manager (with a succeeding write),
`create_wallets 0` returns the empty sequence and the collection read back
from the file afterwards equals the one read before. -/
theorem create_wallets_zero_noop (env : Env) (file : FileContent) (chain : String)
    (hv : chain = "eth" ∨ chain = "sol") (hnet : chain = env.network)
    (hio : env.io_fail = false) :
    (create_wallets env file 0 chain).1 = Except.ok [] ∧
    load_wallets (create_wallets env file 0 chain).2 = load_wallets file := by
  rw [create_wallets_ok env file 0 chain le_rfl hv hnet hio]
  simp [load_wallets, load_wallets_body]

/-- C7 witness: a zero-count generation on a concrete store. -/
theorem create_wallets_zero_noop_witness :
    (create_wallets demoEnv FileContent.missing 0 "eth").1 = Except.ok [] ∧
    load_wallets (create_wallets demoEnv FileContent.missing 0 "eth").2 =
      load_wallets FileContent.missing :=
  create_wallets_zero_noop demoEnv FileContent.missing "eth" (Or.inl rfl) rfl rfl

/-- C2 counterexample: with a failing disk, `create_wallets` ends in a
raised `IOError` — its outcome is an exception, not a normal return, so the
newly generated in-memory records are NOT returned to the caller, contrary
to the claim. -/
theorem create_wallets_write_failure_counterexample :
    (create_wallets cexEnv FileContent.missing 1 "eth").1 =
      Except.error (WErr.ioError "保存 eth_wallets.json 失败: disk full") ∧
    exceptOk (create_wallets cexEnv FileContent.missing 1 "eth").1 = false := by
  constructor <;> rfl

/-- C2 (amended): if persisting the updated collection fails during
generation, the failure surfaces to the caller as an `IOError` carrying the
wallet-file name, and the newly generated records are NOT returned — the
call raises instead of returning. -/
theorem create_wallets_write_failure_raises (env : Env) (file : FileContent) (n : Int)
    (chain : String) (h0 : 0 ≤ n) (hv : chain = "eth" ∨ chain = "sol")
    (hnet : chain = env.network) (hio : env.io_fail = true) :
    (create_wallets env file n chain).1 =
      Except.error (WErr.ioError ("保存 " ++ wallet_file env ++ " 失败: " ++ env.io_msg)) ∧
    exceptOk (create_wallets env file n chain).1 = false := by
  have h0' : ¬ n < 0 := not_lt.mpr h0
  have hv' : ¬¬(chain = "eth" ∨ chain = "sol") := not_not_intro hv
  have hnet' : ¬(chain ≠ env.network) := not_not_intro hnet
  have key : create_wallets env file n chain =
      (Except.error (WErr.ioError ("保存 " ++ wallet_file env ++ " 失败: " ++ env.io_msg)),
       env.fail_file file) := by
    simp only [create_wallets, save_wallets, if_neg h0', if_neg hv', if_neg hnet', hio, if_true]
  rw [key]
  exact ⟨rfl, rfl⟩

/-- C2 (amended) witness: the failing-disk environment at a concrete
input. -/
theorem create_wallets_write_failure_raises_witness :
    (create_wallets cexEnv FileContent.missing 1 "eth").1 =
      Except.error (WErr.ioError ("保存 " ++ wallet_file cexEnv ++ " 失败: " ++ cexEnv.io_msg)) ∧
    exceptOk (create_wallets cexEnv FileContent.missing 1 "eth").1 = false :=
  create_wallets_write_failure_raises cexEnv FileContent.missing 1 "eth"
    (by decide) (Or.inl rfl) rfl rfl

lemma create_wallets_ok_inv (env : Env) (file : FileContent) (n : Int) (chain : String)
    (nw : List Wallet) (f1 : FileContent)
    (h : create_wallets env file n chain = (Except.ok nw, f1)) :
    nw = (List.range n.toNat).map (make_wallet env chain) ∧
    f1 = FileContent.wallets (load_wallets file ++ nw) := by
  unfold create_wallets at h
  by_cases h1 : n < 0
  · rw [if_pos h1] at h
    exact absurd h (by simp)
  rw [if_neg h1] at h
  by_cases h2 : ¬(chain = "eth" ∨ chain = "sol")
  · rw [if_pos h2] at h
    exact absurd h (by simp)
  rw [if_neg h2] at h
  by_cases h3 : chain ≠ env.network
  · rw [if_pos h3] at h
    exact absurd h (by simp)
  rw [if_neg h3] at h
  cases hio : env.io_fail
  · simp only [save_wallets, hio, Bool.false_eq_true, if_false] at h
    injection h with ha hb
    injection ha with ha'
    subst ha'
    exact ⟨rfl, hb.symm⟩
  · simp only [save_wallets, hio, if_true] at h
    exact absurd h (by simp)

/-- C8: `create_wallets` ends in a raised `ValueError` exactly when a
precondition is violated (negative count, unsupported chain, or chain
different from the manager's), and in each of those cases the persisted
collection is untouched. -/
theorem create_wallets_validation_iff (env : Env) (file : FileContent) (n : Int)
    (chain : String) :
    ((n < 0 ∨ ¬(chain = "eth" ∨ chain = "sol") ∨ chain ≠ env.network) ↔
      isValueError (create_wallets env file n chain).1 = true) ∧
    ((n < 0 ∨ ¬(chain = "eth" ∨ chain = "sol") ∨ chain ≠ env.network) →
      (create_wallets env file n chain).2 = file) := by
  by_cases h1 : n < 0
  · simp [create_wallets, h1, isValueError]
  by_cases h2 : chain = "eth" ∨ chain = "sol"
  · by_cases h3 : chain = env.network
    · have hnn : ¬(chain ≠ env.network) := not_not_intro h3
      cases hio : env.io_fail
      · rw [create_wallets_ok env file n chain (not_lt.mp h1) h2 h3 hio]
        constructor
        · simp [isValueError, h1, not_not_intro h2, hnn]
        · rintro (hv | hv | hv)
          · exact absurd hv h1
          · exact absurd h2 hv
          · exact absurd h3 hv
      · have key : create_wallets env file n chain =
            (Except.error (WErr.ioError ("保存 " ++ wallet_file env ++ " 失败: " ++ env.io_msg)),
             env.fail_file file) := by
          simp only [create_wallets, save_wallets, if_neg h1, if_neg (not_not_intro h2),
            if_neg hnn, hio, if_true]
        rw [key]
        constructor
        · simp [isValueError, h1, not_not_intro h2, hnn]
        · rintro (hv | hv | hv)
          · exact absurd hv h1
          · exact absurd h2 hv
          · exact absurd h3 hv
    · have key : create_wallets env file n chain =
          (Except.error (WErr.valueError "网络与请求链不匹配"), file) := by
        simp only [create_wallets, if_neg h1, if_neg (not_not_intro h2), if_pos h3]
      rw [key]
      exact ⟨by simp [isValueError, h3], fun _ => rfl⟩
  · have key : create_wallets env file n chain =
        (Except.error (WErr.valueError "仅支持 eth 或 sol 链"), file) := by
      simp only [create_wallets, if_neg h1, if_pos h2]
    rw [key]
    exact ⟨by simp [isValueError, h2], fun _ => rfl⟩

/-- C8 witness: a negative count raises `ValueError` and leaves the file
untouched. -/
theorem create_wallets_validation_iff_witness :
    isValueError (create_wallets demoEnv FileContent.missing (-1) "eth").1 = true ∧
    (create_wallets demoEnv FileContent.missing (-1) "eth").2 = FileContent.missing :=
  ⟨(create_wallets_validation_iff demoEnv FileContent.missing (-1) "eth").1.mp
     (Or.inl (by decide)),
   (create_wallets_validation_iff demoEnv FileContent.missing (-1) "eth").2
     (Or.inl (by decide))⟩

/-- C3: for a non-negative request on the manager's own chain,
`manage_wallets` returns the first `requested` records without touching the
file when the request does not exceed the current size, and otherwise calls
`create_wallets` for exactly the shortfall and returns the existing records
followed by the newly created ones. -/
theorem manage_wallets_branch_spec (env : Env) (file : FileContent) (r : Int) (chain : String)
    (h0 : 0 ≤ r) (hnet : chain = env.network) :
    (r.toNat ≤ (load_wallets file).length →
      manage_wallets env file r chain =
        (Except.ok ((load_wallets file).take r.toNat), file)) ∧
    ((load_wallets file).length < r.toNat →
      manage_wallets env file r chain =
        ((create_wallets env file (r - ((load_wallets file).length : Int)) chain).1.map
            (fun nw => load_wallets file ++ nw),
         (create_wallets env file (r - ((load_wallets file).length : Int)) chain).2)) := by
  have h1 : ¬ r < 0 := not_lt.mpr h0
  have hnn : ¬(chain ≠ env.network) := not_not_intro hnet
  constructor
  · intro hle
    have hle' : r ≤ ((load_wallets file).length : Int) := Int.toNat_le.mp hle
    simp only [manage_wallets, if_neg h1, if_neg hnn, if_pos hle']
  · intro hlt
    have hlt' : ((load_wallets file).length : Int) < r := Int.lt_toNat.mp hlt
    have hnle : ¬ r ≤ ((load_wallets file).length : Int) := not_le.mpr hlt'
    simp only [manage_wallets, if_neg h1, if_neg hnn, if_neg hnle]
    cases hc : create_wallets env file (r - ((load_wallets file).length : Int)) chain with
    | mk cres cf =>
      cases cres with
      | ok nw => rfl
      | error e => rfl

/-- C3 witness: requesting 1 record from an empty store takes the shortfall
branch. -/
theorem manage_wallets_branch_spec_witness :
    manage_wallets demoEnv FileContent.missing 1 "eth" =
      ((create_wallets demoEnv FileContent.missing
          ((1 : Int) - ((load_wallets FileContent.missing).length : Int)) "eth").1.map
          (fun nw => load_wallets FileContent.missing ++ nw),
       (create_wallets demoEnv FileContent.missing
          ((1 : Int) - ((load_wallets FileContent.missing).length : Int)) "eth").2) :=
  (manage_wallets_branch_spec demoEnv FileContent.missing 1 "eth" (by decide) rfl).2
    (by decide)

/-- C4: `manage_wallets` is idempotent — after one successful call, an
immediate second call with the same request returns the same records and
leaves the file exactly as the first call left it (no further generation),
and the persisted size after the first call is `max k size_before`. -/
theorem manage_wallets_idempotent (env : Env) (file : FileContent) (k : Int) (chain : String)
    (res1 : List Wallet) (file1 : FileContent)
    (h1 : manage_wallets env file k chain = (Except.ok res1, file1)) :
    manage_wallets env file1 k chain = (Except.ok res1, file1) ∧
    (load_wallets file1).length = max k.toNat (load_wallets file).length := by
  by_cases hk : k < 0
  · exact absurd h1 (by simp [manage_wallets, hk])
  by_cases hnet : chain ≠ env.network
  · exact absurd h1 (by simp [manage_wallets, hk, hnet])
  by_cases hle : k ≤ ((load_wallets file).length : Int)
  · have key : manage_wallets env file k chain =
        (Except.ok ((load_wallets file).take k.toNat), file) := by
      simp only [manage_wallets, if_neg hk, if_neg hnet, if_pos hle]
    rw [key] at h1
    injection h1 with ha hb
    injection ha with ha'
    subst hb
    have hton : k.toNat ≤ (load_wallets file).length := Int.toNat_le.mpr hle
    constructor
    · rw [key, ha']
    · omega
  · have hlt : ((load_wallets file).length : Int) < k := not_le.mp hle
    have h0 : 0 ≤ k := not_lt.mp hk
    simp only [manage_wallets, if_neg hk, if_neg hnet, if_neg hle] at h1
    cases hc : create_wallets env file (k - ((load_wallets file).length : Int)) chain with
    | mk cres cf =>
      rw [hc] at h1
      cases cres with
      | error e => exact absurd h1 (by simp)
      | ok nw =>
        simp only at h1
        injection h1 with ha hb
        injection ha with ha'
        obtain ⟨hnw, hcf⟩ :=
          create_wallets_ok_inv env file (k - ((load_wallets file).length : Int)) chain nw cf hc
        have hlen : nw.length = (k - ((load_wallets file).length : Int)).toNat := by
          rw [hnw]
          simp
        have hload1 : load_wallets file1 = load_wallets file ++ nw := by
          rw [← hb, hcf]
          rfl
        have hlen1 : (load_wallets file1).length = k.toNat := by
          rw [hload1, List.length_append, hlen]
          omega
        have hlek : k ≤ ((load_wallets file1).length : Int) := by
          rw [hlen1]
          omega
        have key2 : manage_wallets env file1 k chain =
            (Except.ok ((load_wallets file1).take k.toNat), file1) := by
          simp only [manage_wallets, if_neg hk, if_neg hnet, if_pos hlek]
        have htake : (load_wallets file1).take k.toNat = load_wallets file ++ nw := by
          rw [← hlen1, List.take_length]
          exact hload1
        constructor
        · rw [key2, htake, ha']
        · rw [hlen1]
          omega

/-- C4 witness: growing an empty store to one record, then checking the
second call is a pure read. -/
theorem manage_wallets_idempotent_witness :
    manage_wallets demoEnv (FileContent.wallets [demoWallet]) 1 "eth" =
      (Except.ok [demoWallet], FileContent.wallets [demoWallet]) ∧
    (load_wallets (FileContent.wallets [demoWallet])).length =
      max (1 : Int).toNat (load_wallets FileContent.missing).length :=
  manage_wallets_idempotent demoEnv FileContent.missing 1 "eth" [demoWallet]
    (FileContent.wallets [demoWallet]) rfl

lemma take_prefix_trans {l1 l2 l3 : List Wallet}
    (h1 : l2.take l1.length = l1) (h2 : l3.take l2.length = l2) :
    l3.take l1.length = l1 := by
  have hle : l1.length ≤ l2.length := by
    have hlen := congrArg List.length h1
    rw [List.length_take] at hlen
    omega
  have key : (l3.take l2.length).take l1.length = l3.take l1.length := by
    rw [List.take_take, min_eq_left hle]
  rw [← key, h2, h1]

lemma manage_wallets_keeps_front (env : Env) (file : FileContent) (k : Int) (chain : String)
    (res : List Wallet) (file1 : FileContent)
    (h : manage_wallets env file k chain = (Except.ok res, file1)) :
    (load_wallets file1).take (load_wallets file).length = load_wallets file := by
  by_cases hk : k < 0
  · exact absurd h (by simp [manage_wallets, hk])
  by_cases hnet : chain ≠ env.network
  · exact absurd h (by simp [manage_wallets, hk, hnet])
  by_cases hle : k ≤ ((load_wallets file).length : Int)
  · have key : manage_wallets env file k chain =
        (Except.ok ((load_wallets file).take k.toNat), file) := by
      simp only [manage_wallets, if_neg hk, if_neg hnet, if_pos hle]
    rw [key] at h
    injection h with ha hb
    subst hb
    exact List.take_length _
  · simp only [manage_wallets, if_neg hk, if_neg hnet, if_neg hle] at h
    cases hc : create_wallets env file (k - ((load_wallets file).length : Int)) chain with
    | mk cres cf =>
      rw [hc] at h
      cases cres with
      | error e => exact absurd h (by simp)
      | ok nw =>
        simp only at h
        injection h with ha hb
        obtain ⟨hnw, hcf⟩ :=
          create_wallets_ok_inv env file (k - ((load_wallets file).length : Int)) chain nw cf hc
        have hload1 : load_wallets file1 = load_wallets file ++ nw := by
          rw [← hb, hcf]
          rfl
        rw [hload1]
        exact List.take_left _ _

/-- C5: over any sequence of `manage_wallets` requests threaded through the
file (in particular any decreasing sequence), every record present before
the sequence is still present at the same position afterwards — the initial
collection stays a prefix of the final one; `manage_wallets` never removes
records. -/
theorem manage_wallets_never_removes (env : Env) (chain : String) (ks : List Int)
    (file fileN : FileContent)
    (h : run_requests env chain file ks = Except.ok fileN) :
    (load_wallets fileN).take (load_wallets file).length = load_wallets file := by
  induction ks generalizing file with
  | nil =>
    simp only [run_requests] at h
    injection h with h'
    subst h'
    exact List.take_length _
  | cons k ks ih =>
    simp only [run_requests] at h
    cases hm : manage_wallets env file k chain with
    | mk r f1 =>
      rw [hm] at h
      cases r with
      | error e => exact absurd h (by simp)
      | ok res =>
        simp only at h
        exact take_prefix_trans (manage_wallets_keeps_front env file k chain res f1 hm) (ih f1 h)

/-- C5 witness: the decreasing request sequence `[2, 1, 0]` started from a
one-record store preserves that record as a prefix. -/
theorem manage_wallets_never_removes_witness :
    (load_wallets (FileContent.wallets [demoWallet, demoWallet])).take
      (load_wallets (FileContent.wallets [demoWallet])).length =
      load_wallets (FileContent.wallets [demoWallet]) :=
  manage_wallets_never_removes demoEnv "eth" [2, 1, 0]
    (FileContent.wallets [demoWallet]) (FileContent.wallets [demoWallet, demoWallet]) rfl
